import Mathlib

/-!
# Command router of the Jenkins plugin (`server/command.go`)

A shallow embedding of `ExecuteCommand` and of the helpers it relies on.

* Go strings are modelled by Lean `String`s (sequences of Unicode code points, which is
  what `strings.Fields` sees on valid UTF-8 input).
* A Go `error` value is modelled by `Option String`: `none` is `nil`, `some m` is an error
  whose `Error()` text is `m`.
* A run-time panic (index out of range) is an explicit `Except.error`.
* The collaborators of the router (Jenkins client, credential store) are fields of
  `Plugin`: their results are inputs of the model.  Every call to a collaborator and every
  call to the host platform (`createEphemeralPost`, `API.LogError`) is recorded, in program
  order, in the list of effects of a run.
-/

namespace Jenkins

/-! ## Go standard library: `strings.Fields` -/

/-- Go `unicode.IsSpace`: the code points with the White_Space property. -/
def isSpace (c : Char) : Bool :=
  c.toNat == 0x09 || c.toNat == 0x0A || c.toNat == 0x0B || c.toNat == 0x0C ||
  c.toNat == 0x0D || c.toNat == 0x20 || c.toNat == 0x85 || c.toNat == 0xA0 ||
  c.toNat == 0x1680 || (0x2000 ≤ c.toNat && c.toNat ≤ 0x200A) ||
  c.toNat == 0x2028 || c.toNat == 0x2029 || c.toNat == 0x202F ||
  c.toNat == 0x205F || c.toNat == 0x3000

/-- The scanning loop of `strings.Fields`: `cur` holds the characters of the field being
read; a white-space character closes a non-empty field. -/
def fieldsAux : List Char → List Char → List String
  | [], cur => if cur.isEmpty then [] else [String.mk cur]
  | c :: cs, cur =>
    if isSpace c then
      (if cur.isEmpty then fieldsAux cs [] else String.mk cur :: fieldsAux cs [])
    else fieldsAux cs (cur ++ [c])

/-- Go `strings.Fields`: the maximal runs of non-white-space characters of `s`, in order;
the empty list when `s` holds only white space. -/
def Fields (s : String) : List String :=
  fieldsAux s.data []

/-! ## Data model -/

/-- The fields of `model.CommandResponse` that `command.go` sets; `&model.CommandResponse{}`
is the value with every field empty. -/
structure CommandResponse where
  ResponseType : String := ""
  Username : String := ""
  IconURL : String := ""
  Text : String := ""
  /-- The field `Type` of the Go struct (a reserved word here). -/
  Type_ : String := ""
  deriving DecidableEq, Repr

/-- The type `model.AppError`; `ExecuteCommand` only ever returns `nil` (`none`). -/
structure AppError where
  Message : String
  deriving DecidableEq, Repr

/-- The fields of `model.CommandArgs` that `ExecuteCommand` reads. -/
structure CommandArgs where
  UserId : String
  ChannelId : String
  Command : String
  deriving DecidableEq, Repr

/-- The record `JenkinsUserInfo` built by the `connect` action. -/
structure JenkinsUserInfo where
  UserID : String
  Username : String
  Token : String
  deriving DecidableEq, Repr

/-- The value of `model.COMMAND_RESPONSE_TYPE_EPHEMERAL`. -/
def COMMAND_RESPONSE_TYPE_EPHEMERAL : String := "ephemeral"

/-- The value of `model.POST_DEFAULT`. -/
def POST_DEFAULT : String := ""

def jobNotSpecifiedResponse : String := "Please specify a job name to build."

def jenkinsConnectedResponse : String := "Jenkins has been connected."

/-- The receiver `p *Plugin` as far as `ExecuteCommand` uses it.  The constant
`jenkinsUsername`, the configuration and the methods below are declared outside
`command.go`; they are parameters of the model.  A method returning `(value, error)`
is modelled by a pair. -/
structure Plugin where
  jenkinsUsername : String
  ProfileImageURL : String
  verifyJenkinsCredentials : String → String → Bool × Option String
  storeJenkinsUserInfo : JenkinsUserInfo → Option String
  /-- The first component is `buildInfo.GetUrl()`. -/
  triggerJenkinsJob : String → String → String → String × Option String
  fetchAndUploadArtifactsOfABuild : String → String → String → Option String
  fetchTestReportsLinkOfABuild : String → String → String → String × Option String

/-- One observable call made by `ExecuteCommand`, with its arguments. -/
inductive Effect where
  | createEphemeralPost (userId channelId text : String)
  | verifyJenkinsCredentials (username token : String)
  | storeJenkinsUserInfo (info : JenkinsUserInfo)
  | triggerJenkinsJob (userId channelId jobName : String)
  | fetchAndUploadArtifactsOfABuild (userId channelId jobName : String)
  | fetchTestReportsLinkOfABuild (userId channelId jobName : String)
  | LogError (msg : String) (keyValuePairs : List String)
  deriving DecidableEq, Repr

/-- A run-time panic of the Go program. -/
inductive Panic where
  | indexOutOfRange (index length : Nat)
  deriving DecidableEq, Repr

/-- What one invocation of `ExecuteCommand` does: the returned pair, or the panic that
ended it, and the calls made, in order. -/
structure Run where
  result : Except Panic (CommandResponse × Option AppError)
  effects : List Effect

/-! ## `command.go` -/

/-- The method `getCommandResponse`. -/
def getCommandResponse (p : Plugin) (responseType text : String) : CommandResponse :=
  { ResponseType := responseType
    Username := p.jenkinsUsername
    IconURL := p.ProfileImageURL
    Text := text
    Type_ := POST_DEFAULT }

/-- The `connect` case of the switch, entered with exactly two parameters:
`username` is `parameters[0]` and `token` is `parameters[1]`. -/
def connectTwo (p : Plugin) (args : CommandArgs) (username token : String) : Run :=
  let post := Effect.createEphemeralPost args.UserId args.ChannelId
    "Validating Jenkins credentials..."
  let call := Effect.verifyJenkinsCredentials username token
  let verified := p.verifyJenkinsCredentials username token
  match verified.2 with
  | some verifyErr =>
    ⟨.ok (getCommandResponse p COMMAND_RESPONSE_TYPE_EPHEMERAL "Error connecting to Jenkins.", none),
      [post, call,
        .LogError "Error verifying Jenkins credentials" ["user_id", args.UserId, "Err", verifyErr]]⟩
  | none =>
    if !verified.1 then
      ⟨.ok (getCommandResponse p COMMAND_RESPONSE_TYPE_EPHEMERAL "Incorrect username or token", none),
        [post, call]⟩
    else
      let jenkinsUserInfo : JenkinsUserInfo :=
        { UserID := args.UserId
          Username := username
          Token := token }
      match p.storeJenkinsUserInfo jenkinsUserInfo with
      | some err =>
        ⟨.ok ({}, none),
          [post, call, .storeJenkinsUserInfo jenkinsUserInfo,
            .LogError "Error saving Jenkins user information to KV store" ["Err", err]]⟩
      | none =>
        ⟨.ok (getCommandResponse p COMMAND_RESPONSE_TYPE_EPHEMERAL jenkinsConnectedResponse, none),
          [post, call, .storeJenkinsUserInfo jenkinsUserInfo]⟩

/-- The call of `triggerJenkinsJob` and the two returns that follow it in the `build`
case; `tail` is the text after the build URL, which differs between the two branches
(`". "` with one parameter, `"."` with several). -/
def triggerBuild (p : Plugin) (args : CommandArgs) (jobName tail : String) : Run :=
  let call := Effect.triggerJenkinsJob args.UserId args.ChannelId jobName
  let built := p.triggerJenkinsJob args.UserId args.ChannelId jobName
  match built.2 with
  | some buildErr =>
    ⟨.ok (getCommandResponse p COMMAND_RESPONSE_TYPE_EPHEMERAL
        ("Error triggering build for the job '" ++ jobName ++ "'."), none),
      [call, .LogError "Error triggering build" ["job_name", jobName, "err", buildErr]]⟩
  | none =>
    ⟨.ok (getCommandResponse p COMMAND_RESPONSE_TYPE_EPHEMERAL
        ("Build for the job '" ++ jobName ++ "' has been started.\nHere's the build URL : "
          ++ built.1 ++ tail), none),
      [call]⟩

/-- The notice, the call of `fetchAndUploadArtifactsOfABuild` and what follows it in the
`get-artifacts` case. -/
def fetchArtifacts (p : Plugin) (args : CommandArgs) (jobName : String) : Run :=
  let post := Effect.createEphemeralPost args.UserId args.ChannelId
    ("Fetching build artifacts of '" ++ jobName ++ "'...")
  let call := Effect.fetchAndUploadArtifactsOfABuild args.UserId args.ChannelId jobName
  match p.fetchAndUploadArtifactsOfABuild args.UserId args.ChannelId jobName with
  | some err =>
    ⟨.ok (getCommandResponse p COMMAND_RESPONSE_TYPE_EPHEMERAL "Error fetching artifacts.", none),
      [post, call, .LogError "Error fetching artifacts" ["job_name", jobName, "err", err]]⟩
  | none => ⟨.ok ({}, none), [post, call]⟩

/-- The notice, the call of `fetchTestReportsLinkOfABuild` and what follows it in the
`test-results` case. -/
def fetchTestResults (p : Plugin) (args : CommandArgs) (jobName : String) : Run :=
  let post := Effect.createEphemeralPost args.UserId args.ChannelId
    ("Fetching test results of '" ++ jobName ++ "'...")
  let call := Effect.fetchTestReportsLinkOfABuild args.UserId args.ChannelId jobName
  let fetched := p.fetchTestReportsLinkOfABuild args.UserId args.ChannelId jobName
  match fetched.2 with
  | some err =>
    ⟨.ok (getCommandResponse p COMMAND_RESPONSE_TYPE_EPHEMERAL "Error fetching test results.", none),
      [post, call, .LogError "Error fetching test results" ["job_name", jobName, "err", err]]⟩
  | none =>
    ⟨.ok ({}, none),
      [post, call, .createEphemeralPost args.UserId args.ChannelId fetched.1]⟩

/-- The statement `switch action` of `ExecuteCommand` together with the final
`return &model.CommandResponse{}, nil`, which every case that does not return falls
through to.  The function `parseJobName` is declared outside `command.go` and is a
parameter here. -/
def switchAction (p : Plugin) (parseJobName : List String → String × Bool)
    (args : CommandArgs) (action : String) (parameters : List String) : Run :=
  if action = "connect" then
    if parameters.length = 0 ∨ parameters.length = 1 then
      ⟨.ok (getCommandResponse p COMMAND_RESPONSE_TYPE_EPHEMERAL
        "Please specify both username and API token.", none), []⟩
    else if parameters.length = 2 then
      connectTwo p args (parameters.getD 0 "") (parameters.getD 1 "")
    else ⟨.ok ({}, none), []⟩
  else if action = "build" then
    if parameters.length = 0 then
      ⟨.ok (getCommandResponse p COMMAND_RESPONSE_TYPE_EPHEMERAL jobNotSpecifiedResponse, none), []⟩
    else if parameters.length = 1 then triggerBuild p args (parameters.getD 0 "") ". "
    else if parameters.length > 1 then
      if !(parseJobName parameters).2 then
        ⟨.ok (getCommandResponse p COMMAND_RESPONSE_TYPE_EPHEMERAL
          "Please check `/jenkins help` to find information on how to trigger a job.", none), []⟩
      else triggerBuild p args (parseJobName parameters).1 "."
    else ⟨.ok ({}, none), []⟩
  else if action = "get-artifacts" then
    if parameters.length = 0 then
      ⟨.ok (getCommandResponse p COMMAND_RESPONSE_TYPE_EPHEMERAL jobNotSpecifiedResponse, none), []⟩
    else if parameters.length = 1 then fetchArtifacts p args (parameters.getD 0 "")
    else if parameters.length > 1 then
      if !(parseJobName parameters).2 then
        ⟨.ok (getCommandResponse p COMMAND_RESPONSE_TYPE_EPHEMERAL
          "Please check `/jenkins help` to find information on how to get build artifacts.", none), []⟩
      else fetchArtifacts p args (parseJobName parameters).1
    else ⟨.ok ({}, none), []⟩
  else if action = "test-results" then
    if parameters.length = 0 then
      ⟨.ok (getCommandResponse p COMMAND_RESPONSE_TYPE_EPHEMERAL jobNotSpecifiedResponse, none), []⟩
    else if parameters.length = 1 then fetchTestResults p args (parameters.getD 0 "")
    else if parameters.length > 1 then
      if !(parseJobName parameters).2 then
        ⟨.ok (getCommandResponse p COMMAND_RESPONSE_TYPE_EPHEMERAL
          "Please check `/jenkins help` to find information on how to get test results of a build.", none), []⟩
      else fetchTestResults p args (parseJobName parameters).1
    else ⟨.ok ({}, none), []⟩
  else ⟨.ok ({}, none), []⟩

/-- The method `ExecuteCommand`: the tokens of the command text, `split[0]` (which panics
on an empty slice), the action and the parameters, the test of the trigger word, and
the switch. -/
def ExecuteCommand (p : Plugin) (parseJobName : List String → String × Bool)
    (args : CommandArgs) : Run :=
  match Fields args.Command with
  | [] => ⟨.error (.indexOutOfRange 0 0), []⟩
  | command :: rest =>
    let split := command :: rest
    let action := if split.length > 1 then split.getD 1 "" else ""
    let parameters := if split.length > 2 then split.drop 2 else []
    if command ≠ "/jenkins" then ⟨.ok ({}, none), []⟩
    else switchAction p parseJobName args action parameters

/-! ## The job-name parser

`command.go` calls `parseJobName`, which is declared in another file of the plugin.  The
definitions of this section follow section 4.2 of the specification. -/

/-- The double-quote character. -/
def quote : Char := Char.ofNat 34

/-- The token starts with a double-quote character. -/
def startsWithQuote (token : String) : Bool :=
  token.data.head? == some quote

/-- The token ends with a double-quote character. -/
def endsWithQuote (token : String) : Bool :=
  token.data.getLast? == some quote

/-- Modelled from the spec: the scan of step 1 of the job-name parser, over the tokens
that follow the first one.  Tokens are accumulated, rejoined with single spaces, until
one that ends with a double quote is found; the scan fails when no such token is found
among the remaining tokens, or when tokens remain after it. -/
def scanToClosingQuote : List String → String → Option String
  | [], _ => none
  | token :: remaining, assembled =>
    if endsWithQuote token then
      (if remaining.isEmpty then some (assembled ++ " " ++ token) else none)
    else scanToClosingQuote remaining (assembled ++ " " ++ token)

/-- Modelled from the spec: the stripping of the leading and of the trailing quote
character of the assembled phrase. -/
def stripQuotes (assembled : String) : String :=
  String.mk (assembled.data.drop 1).dropLast

/-- Modelled from the spec: the function `parseJobName` of the plugin, which `command.go`
calls and does not declare.  Step 1: when the first token starts with a double quote the
name is the quoted phrase found by `scanToClosingQuote`, without its two quotes.
Step 2: otherwise parsing fails unless the sequence is exactly one token.  The second
component is the success flag. -/
def parseJobName (parameters : List String) : String × Bool :=
  match parameters with
  | [] => ("", false)
  | first :: remaining =>
    if startsWithQuote first then
      match scanToClosingQuote remaining first with
      | some assembled => (stripQuotes assembled, true)
      | none => ("", false)
    else if remaining.isEmpty then (first, true)
    else ("", false)

/-! ## Observations on a run -/

/-- The calls to the Jenkins client: credential verification, build trigger, artifact
fetch and test-report fetch. -/
def Effect.isJenkinsCall : Effect → Bool
  | .verifyJenkinsCredentials _ _ => true
  | .triggerJenkinsJob _ _ _ => true
  | .fetchAndUploadArtifactsOfABuild _ _ _ => true
  | .fetchTestReportsLinkOfABuild _ _ _ => true
  | _ => false

/-- The entries written with `p.API.LogError`. -/
def Effect.isLogError : Effect → Bool
  | .LogError _ _ => true
  | _ => false

/-- Whether the Jenkins call `e` returns an error when made on `p`. -/
def jenkinsCallFailed (p : Plugin) : Effect → Bool
  | .verifyJenkinsCredentials u t => (p.verifyJenkinsCredentials u t).2.isSome
  | .triggerJenkinsJob u c j => (p.triggerJenkinsJob u c j).2.isSome
  | .fetchAndUploadArtifactsOfABuild u c j => (p.fetchAndUploadArtifactsOfABuild u c j).isSome
  | .fetchTestReportsLinkOfABuild u c j => (p.fetchTestReportsLinkOfABuild u c j).2.isSome
  | _ => false

/-- Whether the external call `e` (a Jenkins call or a credential-store call) returns an
error when made on `p`. -/
def externalCallFailed (p : Plugin) : Effect → Bool
  | .storeJenkinsUserInfo i => (p.storeJenkinsUserInfo i).isSome
  | e => jenkinsCallFailed p e

/-- The calls to the credential store. -/
def Effect.isStoreCall : Effect → Bool
  | .storeJenkinsUserInfo _ => true
  | _ => false

/-- The response visible only to the invoking user, with text `text`, as the plugin
`p` builds it. -/
def ephemeralResponse (p : Plugin) (text : String) : CommandResponse :=
  { ResponseType := "ephemeral"
    Username := p.jenkinsUsername
    IconURL := p.ProfileImageURL
    Text := text
    Type_ := "" }

/-- The value `&model.CommandResponse{}`. -/
def emptyResponse : CommandResponse :=
  { ResponseType := "", Username := "", IconURL := "", Text := "", Type_ := "" }

/-- The call to the Jenkins client that belongs to an action taking a job name: the
build trigger for `build`, the artifact fetch for `get-artifacts`, the test-report fetch
for `test-results`. -/
def jenkinsOperation (action userId channelId jobName : String) : Effect :=
  if action = "build" then .triggerJenkinsJob userId channelId jobName
  else if action = "get-artifacts" then .fetchAndUploadArtifactsOfABuild userId channelId jobName
  else .fetchTestReportsLinkOfABuild userId channelId jobName

/-- The text that refers the user to `/jenkins help`, for each action taking a job name. -/
def helpReferral (action : String) : String :=
  if action = "build" then
    "Please check `/jenkins help` to find information on how to trigger a job."
  else if action = "get-artifacts" then
    "Please check `/jenkins help` to find information on how to get build artifacts."
  else "Please check `/jenkins help` to find information on how to get test results of a build."

/-- The generic error texts shown to the user when a call to the Jenkins client fails. -/
def isGenericErrorText (text : String) : Prop :=
  text = "Error connecting to Jenkins." ∨
  (∃ jobName, text = "Error triggering build for the job '" ++ jobName ++ "'.") ∨
  text = "Error fetching artifacts." ∨
  text = "Error fetching test results."

/-- The logging discipline of a run on `p`: the number of log entries is one when an
external call of the run failed and zero otherwise, and a failed Jenkins call is
answered by an ephemeral generic error text. -/
def LogsExactlyFailures (p : Plugin) (r : Run) : Prop :=
  (r.effects.filter Effect.isLogError).length =
      (if r.effects.any (externalCallFailed p) then 1 else 0) ∧
  (r.effects.any (jenkinsCallFailed p) = true →
    ∃ text, r.result = .ok (ephemeralResponse p text, none) ∧ isGenericErrorText text)

/-- A stand-in for `parseJobName` that rejects every sequence of tokens. -/
def rejectAll (_parameters : List String) : String × Bool :=
  ("", false)

/-- A stand-in for `parseJobName` that accepts every sequence of tokens and answers the
tokens joined by single spaces. -/
def joinTokens (parameters : List String) : String × Bool :=
  (" ".intercalate parameters, true)

/-- A plugin whose collaborators all succeed: every credential pair verifies, the store
accepts every record, a build of job `j` gets the URL `http://ci/job/j/1`. -/
def happyPlugin : Plugin :=
  { jenkinsUsername := "Jenkins Plugin"
    ProfileImageURL := ""
    verifyJenkinsCredentials := fun _ _ => (true, none)
    storeJenkinsUserInfo := fun _ => none
    triggerJenkinsJob := fun _ _ j => ("http://ci/job/" ++ j ++ "/1", none)
    fetchAndUploadArtifactsOfABuild := fun _ _ _ => none
    fetchTestReportsLinkOfABuild := fun _ _ j => ("Test report of " ++ j, none) }

/-- A plugin whose collaborators all return an error. -/
def failingPlugin : Plugin :=
  { jenkinsUsername := "Jenkins Plugin"
    ProfileImageURL := ""
    verifyJenkinsCredentials := fun _ _ => (false, some "connection refused")
    storeJenkinsUserInfo := fun _ => some "store unavailable"
    triggerJenkinsJob := fun _ _ _ => ("", some "connection refused")
    fetchAndUploadArtifactsOfABuild := fun _ _ _ => some "connection refused"
    fetchTestReportsLinkOfABuild := fun _ _ _ => ("", some "connection refused") }

/-! ## Lemmas on `strings.Fields` -/

theorem fieldsAux_ne_nil_of_cur (cs cur : List Char) (h : cur ≠ []) :
    fieldsAux cs cur ≠ [] := by
  induction cs generalizing cur with
  | nil => simp [fieldsAux, h]
  | cons c cs ih =>
    unfold fieldsAux
    by_cases hc : isSpace c = true
    · simp [hc, h]
    · simp only [hc]
      exact ih (cur ++ [c]) (by simp)

theorem fieldsAux_nil_eq_nil_iff (cs : List Char) :
    fieldsAux cs [] = [] ↔ ∀ c ∈ cs, isSpace c = true := by
  induction cs with
  | nil => simp [fieldsAux]
  | cons c cs ih =>
    unfold fieldsAux
    by_cases hc : isSpace c = true
    · simp [hc, ih]
    · simp only [hc, List.nil_append]
      constructor
      · intro h
        exact absurd h (fieldsAux_ne_nil_of_cur cs [c] (by simp))
      · intro h
        exact absurd (h c (by simp)) hc

theorem Fields_eq_nil_iff (s : String) :
    Fields s = [] ↔ ∀ c ∈ s.data, isSpace c = true :=
  fieldsAux_nil_eq_nil_iff s.data

/-! ## Every path returns -/

theorem connectTwo_result (p : Plugin) (args : CommandArgs) (username token : String) :
    ∃ resp, (connectTwo p args username token).result = .ok (resp, none) := by
  unfold connectTwo
  simp only
  split
  · exact ⟨_, rfl⟩
  · split
    · exact ⟨_, rfl⟩
    · split <;> exact ⟨_, rfl⟩

theorem triggerBuild_result (p : Plugin) (args : CommandArgs) (jobName tail : String) :
    ∃ resp, (triggerBuild p args jobName tail).result = .ok (resp, none) := by
  unfold triggerBuild
  simp only
  split <;> exact ⟨_, rfl⟩

theorem fetchArtifacts_result (p : Plugin) (args : CommandArgs) (jobName : String) :
    ∃ resp, (fetchArtifacts p args jobName).result = .ok (resp, none) := by
  unfold fetchArtifacts
  simp only
  split <;> exact ⟨_, rfl⟩

theorem fetchTestResults_result (p : Plugin) (args : CommandArgs) (jobName : String) :
    ∃ resp, (fetchTestResults p args jobName).result = .ok (resp, none) := by
  unfold fetchTestResults
  simp only
  split <;> exact ⟨_, rfl⟩

theorem switchAction_result (p : Plugin) (parse : List String → String × Bool)
    (args : CommandArgs) (action : String) (parameters : List String) :
    ∃ resp, (switchAction p parse args action parameters).result = .ok (resp, none) := by
  have h1 := fun l : List String => connectTwo_result p args (l.getD 0 "") (l.getD 1 "")
  have h2 := triggerBuild_result p args
  have h3 := fetchArtifacts_result p args
  have h4 := fetchTestResults_result p args
  unfold switchAction
  split_ifs <;> first | exact ⟨_, rfl⟩ | apply h1 | apply h2 | apply h3 | apply h4

/-- With `/jenkins` as first token, `ExecuteCommand` is the switch on the second token
(the empty action when there is none) and the tokens after it. -/
theorem ExecuteCommand_eq_switchAction (p : Plugin)
    (parse : List String → String × Bool) (args : CommandArgs) (rest : List String)
    (hsplit : Fields args.Command = "/jenkins" :: rest) :
    ExecuteCommand p parse args =
      switchAction p parse args (rest.headD "") (rest.drop 1) := by
  unfold ExecuteCommand
  simp only [hsplit]
  rcases rest with _ | ⟨a, _ | ⟨b, r⟩⟩ <;> simp

/-- The same with an action present. -/
theorem ExecuteCommand_eq_switchAction_cons (p : Plugin)
    (parse : List String → String × Bool) (args : CommandArgs)
    (action : String) (parameters : List String)
    (hsplit : Fields args.Command = "/jenkins" :: action :: parameters) :
    ExecuteCommand p parse args =
      switchAction p parse args action parameters := by
  rw [ExecuteCommand_eq_switchAction p parse args _ hsplit]
  rfl

theorem ExecuteCommand_result_of_fields (p : Plugin)
    (parse : List String → String × Bool) (args : CommandArgs)
    (command : String) (rest : List String) (hsplit : Fields args.Command = command :: rest) :
    ∃ resp, (ExecuteCommand p parse args).result = .ok (resp, none) := by
  by_cases hcmd : command = "/jenkins"
  · subst hcmd
    rw [ExecuteCommand_eq_switchAction p parse args rest hsplit]
    exact switchAction_result _ _ _ _ _
  · unfold ExecuteCommand
    simp only [hsplit]
    simp [hcmd]

/-! ## Logging discipline of every path -/

theorem LogsExactlyFailures_quiet (p : Plugin) (resp : CommandResponse) :
    LogsExactlyFailures p ⟨.ok (resp, none), []⟩ := by
  simp [LogsExactlyFailures]

theorem connectTwo_logs (p : Plugin) (args : CommandArgs) (username token : String) :
    LogsExactlyFailures p (connectTwo p args username token) := by
  unfold connectTwo
  simp only
  split
  next e he =>
    refine ⟨by simp [Effect.isLogError, externalCallFailed, jenkinsCallFailed, he],
      fun _ => ⟨_, ?_, Or.inl rfl⟩⟩
    simp [getCommandResponse, ephemeralResponse, COMMAND_RESPONSE_TYPE_EPHEMERAL, POST_DEFAULT]
  next he =>
    split
    · simp [LogsExactlyFailures, Effect.isLogError, externalCallFailed, jenkinsCallFailed, he]
    · split
      next e hs =>
        simp [LogsExactlyFailures, Effect.isLogError, externalCallFailed, jenkinsCallFailed,
          he, hs]
      next hs =>
        simp [LogsExactlyFailures, Effect.isLogError, externalCallFailed, jenkinsCallFailed,
          he, hs]

theorem triggerBuild_logs (p : Plugin) (args : CommandArgs) (jobName tail : String) :
    LogsExactlyFailures p (triggerBuild p args jobName tail) := by
  unfold triggerBuild
  simp only
  split
  next e he =>
    refine ⟨by simp [Effect.isLogError, externalCallFailed, jenkinsCallFailed, he],
      fun _ => ⟨_, ?_, Or.inr (Or.inl ⟨jobName, rfl⟩)⟩⟩
    simp [getCommandResponse, ephemeralResponse, COMMAND_RESPONSE_TYPE_EPHEMERAL, POST_DEFAULT]
  next he =>
    simp [LogsExactlyFailures, Effect.isLogError, externalCallFailed, jenkinsCallFailed, he]

theorem fetchArtifacts_logs (p : Plugin) (args : CommandArgs) (jobName : String) :
    LogsExactlyFailures p (fetchArtifacts p args jobName) := by
  unfold fetchArtifacts
  simp only
  split
  next e he =>
    refine ⟨by simp [Effect.isLogError, externalCallFailed, jenkinsCallFailed, he],
      fun _ => ⟨_, ?_, Or.inr (Or.inr (Or.inl rfl))⟩⟩
    simp [getCommandResponse, ephemeralResponse, COMMAND_RESPONSE_TYPE_EPHEMERAL, POST_DEFAULT]
  next he =>
    simp [LogsExactlyFailures, Effect.isLogError, externalCallFailed, jenkinsCallFailed, he]

theorem fetchTestResults_logs (p : Plugin) (args : CommandArgs) (jobName : String) :
    LogsExactlyFailures p (fetchTestResults p args jobName) := by
  unfold fetchTestResults
  simp only
  split
  next e he =>
    refine ⟨by simp [Effect.isLogError, externalCallFailed, jenkinsCallFailed, he],
      fun _ => ⟨_, ?_, Or.inr (Or.inr (Or.inr rfl))⟩⟩
    simp [getCommandResponse, ephemeralResponse, COMMAND_RESPONSE_TYPE_EPHEMERAL, POST_DEFAULT]
  next he =>
    simp [LogsExactlyFailures, Effect.isLogError, externalCallFailed, jenkinsCallFailed, he]

theorem switchAction_logs (p : Plugin) (parse : List String → String × Bool)
    (args : CommandArgs) (action : String) (parameters : List String) :
    LogsExactlyFailures p (switchAction p parse args action parameters) := by
  have h0 := LogsExactlyFailures_quiet p
  have h1 := fun l : List String => connectTwo_logs p args (l.getD 0 "") (l.getD 1 "")
  have h2 := triggerBuild_logs p args
  have h3 := fetchArtifacts_logs p args
  have h4 := fetchTestResults_logs p args
  unfold switchAction
  split_ifs <;> first | apply h0 | apply h1 | apply h2 | apply h3 | apply h4

/-! ## The switch with more than one parameter -/

theorem switchAction_parse_failure (p : Plugin) (parse : List String → String × Bool)
    (args : CommandArgs) (action : String) (parameters : List String)
    (haction : action = "build" ∨ action = "get-artifacts" ∨ action = "test-results")
    (hlen : 1 < parameters.length) (hfail : (parse parameters).2 = false) :
    switchAction p parse args action parameters =
      ⟨.ok (ephemeralResponse p (helpReferral action), none), []⟩ := by
  have e0 : ¬ parameters.length = 0 := by omega
  have e1 : ¬ parameters.length = 1 := by omega
  rcases haction with rfl | rfl | rfl
  · rw [switchAction, if_neg (by decide), if_pos rfl, if_neg e0, if_neg e1, if_pos hlen]
    simp [hfail, helpReferral, getCommandResponse, ephemeralResponse,
      COMMAND_RESPONSE_TYPE_EPHEMERAL, POST_DEFAULT]
  · rw [switchAction, if_neg (by decide), if_neg (by decide), if_pos rfl, if_neg e0, if_neg e1,
      if_pos hlen]
    simp [hfail, helpReferral, getCommandResponse, ephemeralResponse,
      COMMAND_RESPONSE_TYPE_EPHEMERAL, POST_DEFAULT]
  · rw [switchAction, if_neg (by decide), if_neg (by decide), if_neg (by decide), if_pos rfl,
      if_neg e0, if_neg e1, if_pos hlen]
    simp [hfail, helpReferral, getCommandResponse, ephemeralResponse,
      COMMAND_RESPONSE_TYPE_EPHEMERAL, POST_DEFAULT]

theorem switchAction_parse_success (p : Plugin) (parse : List String → String × Bool)
    (args : CommandArgs) (action : String) (parameters : List String)
    (haction : action = "build" ∨ action = "get-artifacts" ∨ action = "test-results")
    (hlen : 1 < parameters.length) (hok : (parse parameters).2 = true) :
    (switchAction p parse args action parameters).effects.filter Effect.isJenkinsCall =
      [jenkinsOperation action args.UserId args.ChannelId (parse parameters).1] := by
  have e0 : ¬ parameters.length = 0 := by omega
  have e1 : ¬ parameters.length = 1 := by omega
  rcases haction with rfl | rfl | rfl
  · rw [switchAction, if_neg (by decide), if_pos rfl, if_neg e0, if_neg e1, if_pos hlen]
    simp only [hok, Bool.not_true, Bool.false_eq_true, if_false]
    unfold triggerBuild
    rcases p.triggerJenkinsJob args.UserId args.ChannelId (parse parameters).1
      with ⟨u, _ | e⟩ <;> simp [Effect.isJenkinsCall, jenkinsOperation]
  · rw [switchAction, if_neg (by decide), if_neg (by decide), if_pos rfl, if_neg e0, if_neg e1,
      if_pos hlen]
    simp only [hok, Bool.not_true, Bool.false_eq_true, if_false]
    unfold fetchArtifacts
    rcases p.fetchAndUploadArtifactsOfABuild args.UserId args.ChannelId
      (parse parameters).1 with _ | e <;> simp [Effect.isJenkinsCall, jenkinsOperation]
  · rw [switchAction, if_neg (by decide), if_neg (by decide), if_neg (by decide), if_pos rfl,
      if_neg e0, if_neg e1, if_pos hlen]
    simp only [hok, Bool.not_true, Bool.false_eq_true, if_false]
    unfold fetchTestResults
    rcases p.fetchTestReportsLinkOfABuild args.UserId args.ChannelId
      (parse parameters).1 with ⟨u, _ | e⟩ <;> simp [Effect.isJenkinsCall, jenkinsOperation]

/-! ## Lemmas on the job-name parser -/

theorem scanToClosingQuote_closing_last (mid : List String) (last assembled : String)
    (hmid : ∀ t ∈ mid, endsWithQuote t = false) (hlast : endsWithQuote last = true) :
    scanToClosingQuote (mid ++ [last]) assembled =
      some (String.intercalate.go assembled " " (mid ++ [last])) := by
  induction mid generalizing assembled with
  | nil => simp [scanToClosingQuote, hlast, String.intercalate.go]
  | cons t ts ih =>
    have ht : endsWithQuote t = false := hmid t (by simp)
    have hts : ∀ u ∈ ts, endsWithQuote u = false := fun u hu => hmid u (by simp [hu])
    simp [scanToClosingQuote, ht, String.intercalate.go, ih _ hts]

theorem intercalate_go_data (l : List String) (assembled : String) :
    (String.intercalate.go assembled " " l).data =
      assembled.data ++ (l.map (fun t => ' ' :: t.data)).flatten := by
  induction l generalizing assembled with
  | nil => simp [String.intercalate.go]
  | cons t ts ih => simp [String.intercalate.go, ih]

/-! ## The command router -/

/-- C1: when the first white-space-separated token of the command text is not `/jenkins`,
`ExecuteCommand` returns the empty `CommandResponse` with a nil error and makes no call
at all (no ephemeral post, no log entry, no Jenkins call, no credential-store call),
whatever the remaining tokens are. -/
theorem ExecuteCommand_other_trigger (p : Plugin) (parse : List String → String × Bool)
    (args : CommandArgs) (command : String) (rest : List String)
    (hsplit : Fields args.Command = command :: rest) (hcmd : command ≠ "/jenkins") :
    (ExecuteCommand p parse args).result = .ok (emptyResponse, none) ∧
    (ExecuteCommand p parse args).effects = [] := by
  unfold ExecuteCommand
  simp only [hsplit]
  simp [hcmd, emptyResponse]

theorem ExecuteCommand_other_trigger_witness :
    (ExecuteCommand happyPlugin rejectAll ⟨"u1", "c1", "/jenkinsx build job"⟩).result =
      .ok (emptyResponse, none) ∧
    (ExecuteCommand happyPlugin rejectAll ⟨"u1", "c1", "/jenkinsx build job"⟩).effects = [] :=
  ExecuteCommand_other_trigger happyPlugin rejectAll ⟨"u1", "c1", "/jenkinsx build job"⟩
    "/jenkinsx" ["build", "job"] (by decide) (by decide)

/-- C10: `ExecuteCommand` is not total on its command text.  `split[0]` is read without
a test of `len(split)`: the invocation ends in an index-out-of-range panic exactly when
the command text holds only white space, which is the case for the empty text and for
the text `" \t "`; on every other text a response is returned. -/
theorem ExecuteCommand_panics_iff_blank (p : Plugin)
    (parse : List String → String × Bool) (args : CommandArgs) :
    ((ExecuteCommand p parse args).result = .error (.indexOutOfRange 0 0) ↔
      ∀ c ∈ args.Command.data, isSpace c = true) ∧
    ((∃ resp, (ExecuteCommand p parse args).result = .ok (resp, none)) ↔
      ∃ c ∈ args.Command.data, isSpace c = false) ∧
    (ExecuteCommand p parse ⟨args.UserId, args.ChannelId, ""⟩).result
      = .error (.indexOutOfRange 0 0) ∧
    (ExecuteCommand p parse ⟨args.UserId, args.ChannelId, " \t "⟩).result
      = .error (.indexOutOfRange 0 0) := by
  have key : ∀ a : CommandArgs, Fields a.Command = [] →
      (ExecuteCommand p parse a).result = .error (.indexOutOfRange 0 0) := by
    intro a ha
    unfold ExecuteCommand
    simp only [ha]
  have h0 : Fields "" = [] := by decide
  have h1 : Fields " \t " = [] := by decide
  have blank : Fields args.Command = [] ↔ ∀ c ∈ args.Command.data, isSpace c = true :=
    Fields_eq_nil_iff _
  refine ⟨⟨?_, ?_⟩, ⟨?_, ?_⟩, key ⟨_, _, ""⟩ h0, key ⟨_, _, " \t "⟩ h1⟩
  · intro h
    rw [← blank]
    cases hf : Fields args.Command with
    | nil => rfl
    | cons command rest =>
      obtain ⟨resp, hr⟩ := ExecuteCommand_result_of_fields p parse args command rest hf
      rw [hr] at h
      cases h
  · intro h
    exact key args (blank.2 h)
  · rintro ⟨resp, hr⟩
    by_contra hno
    have hall : ∀ c ∈ args.Command.data, isSpace c = true := by
      intro c hc
      by_contra hc2
      exact hno ⟨c, hc, by simpa using hc2⟩
    rw [key args (blank.2 hall)] at hr
    cases hr
  · rintro ⟨c, hc, hsp⟩
    cases hf : Fields args.Command with
    | nil =>
      have := blank.1 hf c hc
      rw [hsp] at this
      cases this
    | cons command rest =>
      exact ExecuteCommand_result_of_fields p parse args command rest hf

/-- C7: with `/jenkins` as trigger, `connect` with zero or one parameter is answered by
the ephemeral text "Please specify both username and API token.", and `build`,
`get-artifacts` and `test-results` with zero parameters by the ephemeral text
"Please specify a job name to build."; no call is made (no verification, store,
trigger, fetch, ephemeral post or log entry). -/
theorem ExecuteCommand_missing_parameters (p : Plugin)
    (parse : List String → String × Bool) (args : CommandArgs)
    (action : String) (parameters : List String)
    (hsplit : Fields args.Command = "/jenkins" :: action :: parameters)
    (hcase : (action = "connect" ∧ parameters.length ≤ 1) ∨
      ((action = "build" ∨ action = "get-artifacts" ∨ action = "test-results") ∧
        parameters = [])) :
    (ExecuteCommand p parse args).result =
      .ok (ephemeralResponse p (if action = "connect"
        then "Please specify both username and API token."
        else "Please specify a job name to build."), none) ∧
    (ExecuteCommand p parse args).effects = [] := by
  rw [ExecuteCommand_eq_switchAction_cons p parse args _ _ hsplit]
  rcases hcase with ⟨rfl, hlen⟩ | ⟨rfl | rfl | rfl, rfl⟩
  · have hlen2 : parameters.length = 0 ∨ parameters.length = 1 := by omega
    rw [switchAction, if_pos rfl, if_pos hlen2]
    simp [getCommandResponse, ephemeralResponse, COMMAND_RESPONSE_TYPE_EPHEMERAL, POST_DEFAULT]
  · simp [switchAction, getCommandResponse, ephemeralResponse,
      COMMAND_RESPONSE_TYPE_EPHEMERAL, POST_DEFAULT, jobNotSpecifiedResponse]
  · simp [switchAction, getCommandResponse, ephemeralResponse,
      COMMAND_RESPONSE_TYPE_EPHEMERAL, POST_DEFAULT, jobNotSpecifiedResponse]
  · simp [switchAction, getCommandResponse, ephemeralResponse,
      COMMAND_RESPONSE_TYPE_EPHEMERAL, POST_DEFAULT, jobNotSpecifiedResponse]

theorem ExecuteCommand_missing_parameters_witness :
    (ExecuteCommand happyPlugin rejectAll ⟨"u1", "c1", "/jenkins connect alice"⟩).result =
      .ok (ephemeralResponse happyPlugin (if "connect" = "connect"
        then "Please specify both username and API token."
        else "Please specify a job name to build."), none) ∧
    (ExecuteCommand happyPlugin rejectAll ⟨"u1", "c1", "/jenkins connect alice"⟩).effects
      = [] :=
  ExecuteCommand_missing_parameters happyPlugin rejectAll
    ⟨"u1", "c1", "/jenkins connect alice"⟩ "connect" ["alice"] (by decide)
    (Or.inl ⟨rfl, by decide⟩)

/-- C8: with `/jenkins` as trigger, when the action is absent, or is none of `connect`,
`build`, `get-artifacts` and `test-results` (`help` for one), or is `connect` with more
than two parameters, `ExecuteCommand` returns the empty `CommandResponse` and makes no
call at all. -/
theorem ExecuteCommand_no_op (p : Plugin)
    (parse : List String → String × Bool) (args : CommandArgs) (rest : List String)
    (hsplit : Fields args.Command = "/jenkins" :: rest)
    (hcase : rest = [] ∨
      (∃ action parameters, rest = action :: parameters ∧
        ((action ≠ "connect" ∧ action ≠ "build" ∧ action ≠ "get-artifacts" ∧
            action ≠ "test-results") ∨
          (action = "connect" ∧ 2 < parameters.length)))) :
    (ExecuteCommand p parse args).result = .ok (emptyResponse, none) ∧
    (ExecuteCommand p parse args).effects = [] := by
  rcases hcase with rfl | ⟨action, parameters, rfl, ⟨h1, h2, h3, h4⟩ | ⟨rfl, hlen⟩⟩
  · rw [ExecuteCommand_eq_switchAction p parse args _ hsplit]
    simp [switchAction, emptyResponse]
  · rw [ExecuteCommand_eq_switchAction_cons p parse args _ _ hsplit]
    simp [switchAction, emptyResponse, h1, h2, h3, h4]
  · rw [ExecuteCommand_eq_switchAction_cons p parse args _ _ hsplit]
    have e0 : ¬ (parameters.length = 0 ∨ parameters.length = 1) := by omega
    have e2 : ¬ parameters.length = 2 := by omega
    rw [switchAction, if_pos rfl, if_neg e0, if_neg e2]
    simp [emptyResponse]

theorem ExecuteCommand_no_op_witness :
    (ExecuteCommand failingPlugin rejectAll ⟨"u1", "c1", "/jenkins help"⟩).result
      = .ok (emptyResponse, none) ∧
    (ExecuteCommand failingPlugin rejectAll ⟨"u1", "c1", "/jenkins help"⟩).effects
      = [] :=
  ExecuteCommand_no_op failingPlugin rejectAll ⟨"u1", "c1", "/jenkins help"⟩
    ["help"] (by decide) (Or.inr ⟨"help", [], rfl, Or.inl (by decide)⟩)


/-- C9: over every invocation of `ExecuteCommand`, with the results of the collaborators
as inputs, the number of error log entries written is one when an external call made
during the invocation (credential verification, credential store, build trigger,
artifact fetch, test-report fetch) returned an error and zero otherwise; and when a
Jenkins call returned an error the response is an ephemeral generic error text.  An
invocation without a failed call (a malformed job name, a missing parameter,
credentials that verify as false) therefore writes no log entry. -/
theorem ExecuteCommand_logs_exactly_failures (p : Plugin)
    (parse : List String → String × Bool) (args : CommandArgs) :
    (((ExecuteCommand p parse args).effects.filter Effect.isLogError).length =
      (if (ExecuteCommand p parse args).effects.any (externalCallFailed p)
        then 1 else 0)) ∧
    ((ExecuteCommand p parse args).effects.any (jenkinsCallFailed p) = true →
      ∃ text, (ExecuteCommand p parse args).result = .ok (ephemeralResponse p text, none) ∧
        (text = "Error connecting to Jenkins." ∨
          (∃ jobName, text = "Error triggering build for the job '" ++ jobName ++ "'.") ∨
          text = "Error fetching artifacts." ∨
          text = "Error fetching test results.")) := by
  cases hf : Fields args.Command with
  | nil =>
    unfold ExecuteCommand
    simp [hf]
  | cons command rest =>
    by_cases hcmd : command = "/jenkins"
    · subst hcmd
      rw [ExecuteCommand_eq_switchAction p parse args rest hf]
      exact switchAction_logs p parse args _ _
    · unfold ExecuteCommand
      simp [hf, hcmd]


/-- C2: for `/jenkins connect <username> <token>` with exactly two parameters, the only
Jenkins call is the verification of the pair (first parameter, second parameter); the
credential store is called exactly when the verification returned true without error,
and then once, with the record (invoking user id, first parameter, second parameter).
The response is the ephemeral "Error connecting to Jenkins." on a verification error,
the ephemeral "Incorrect username or token" when the verification returns false, the
ephemeral "Jenkins has been connected." when the store succeeds and the empty response
when the store fails. -/
theorem ExecuteCommand_connect (p : Plugin)
    (parse : List String → String × Bool) (args : CommandArgs)
    (username token : String)
    (hsplit : Fields args.Command = ["/jenkins", "connect", username, token]) :
    (ExecuteCommand p parse args).effects.filter Effect.isJenkinsCall =
      [.verifyJenkinsCredentials username token] ∧
    (ExecuteCommand p parse args).effects.filter Effect.isStoreCall =
      (if p.verifyJenkinsCredentials username token = (true, none)
        then [.storeJenkinsUserInfo ⟨args.UserId, username, token⟩] else []) ∧
    (ExecuteCommand p parse args).result = .ok
      (match p.verifyJenkinsCredentials username token with
        | (_, some _) => ephemeralResponse p "Error connecting to Jenkins."
        | (false, none) => ephemeralResponse p "Incorrect username or token"
        | (true, none) =>
          match p.storeJenkinsUserInfo ⟨args.UserId, username, token⟩ with
          | none => ephemeralResponse p "Jenkins has been connected."
          | some _ => emptyResponse, none) := by
  rw [ExecuteCommand_eq_switchAction_cons p parse args _ _ hsplit]
  have hsw : switchAction p parse args "connect" [username, token] =
      connectTwo p args username token := by
    simp [switchAction]
  rw [hsw]
  unfold connectTwo
  rcases hv : p.verifyJenkinsCredentials username token with ⟨v, _ | e⟩
  · cases v
    · simp [Effect.isJenkinsCall, Effect.isStoreCall, getCommandResponse, ephemeralResponse,
        COMMAND_RESPONSE_TYPE_EPHEMERAL, POST_DEFAULT]
    · cases hs : p.storeJenkinsUserInfo ⟨args.UserId, username, token⟩ <;>
        simp [hs, Effect.isJenkinsCall, Effect.isStoreCall, getCommandResponse,
          ephemeralResponse, emptyResponse, COMMAND_RESPONSE_TYPE_EPHEMERAL, POST_DEFAULT,
          jenkinsConnectedResponse]
  · simp [Effect.isJenkinsCall, Effect.isStoreCall, getCommandResponse, ephemeralResponse,
      COMMAND_RESPONSE_TYPE_EPHEMERAL, POST_DEFAULT]

theorem ExecuteCommand_connect_witness :
    (ExecuteCommand happyPlugin rejectAll
        ⟨"u1", "c1", "/jenkins connect alice s3cret"⟩).effects.filter Effect.isJenkinsCall =
      [.verifyJenkinsCredentials "alice" "s3cret"] ∧
    (ExecuteCommand happyPlugin rejectAll
        ⟨"u1", "c1", "/jenkins connect alice s3cret"⟩).effects.filter Effect.isStoreCall =
      (if happyPlugin.verifyJenkinsCredentials "alice" "s3cret" = (true, none)
        then [.storeJenkinsUserInfo ⟨"u1", "alice", "s3cret"⟩] else []) ∧
    (ExecuteCommand happyPlugin rejectAll
        ⟨"u1", "c1", "/jenkins connect alice s3cret"⟩).result = .ok
      (match happyPlugin.verifyJenkinsCredentials "alice" "s3cret" with
        | (_, some _) => ephemeralResponse happyPlugin "Error connecting to Jenkins."
        | (false, none) => ephemeralResponse happyPlugin "Incorrect username or token"
        | (true, none) =>
          match happyPlugin.storeJenkinsUserInfo ⟨"u1", "alice", "s3cret"⟩ with
          | none => ephemeralResponse happyPlugin "Jenkins has been connected."
          | some _ => emptyResponse, none) :=
  ExecuteCommand_connect happyPlugin rejectAll
    ⟨"u1", "c1", "/jenkins connect alice s3cret"⟩ "alice" "s3cret" (by decide)

/-- C3: for `/jenkins build <token>` with exactly one parameter, the only Jenkins call
is one build trigger whose job name is the token unmodified (no quote stripping, no
folder splitting), and the ephemeral response carries the same job name with the build
URL on success, and is "Error triggering build for the job '<token>'." when the
trigger fails. -/
theorem ExecuteCommand_build_one_parameter (p : Plugin)
    (parse : List String → String × Bool) (args : CommandArgs) (token : String)
    (hsplit : Fields args.Command = ["/jenkins", "build", token]) :
    (ExecuteCommand p parse args).effects.filter Effect.isJenkinsCall =
      [.triggerJenkinsJob args.UserId args.ChannelId token] ∧
    (ExecuteCommand p parse args).result = .ok
      (ephemeralResponse p
        (match (p.triggerJenkinsJob args.UserId args.ChannelId token).2 with
          | some _ => "Error triggering build for the job '" ++ token ++ "'."
          | none => "Build for the job '" ++ token ++
              "' has been started.\nHere's the build URL : " ++
              (p.triggerJenkinsJob args.UserId args.ChannelId token).1 ++ ". "), none) := by
  rw [ExecuteCommand_eq_switchAction_cons p parse args _ _ hsplit]
  have hsw : switchAction p parse args "build" [token] =
      triggerBuild p args token ". " := by
    simp [switchAction]
  rw [hsw]
  unfold triggerBuild
  rcases hv : p.triggerJenkinsJob args.UserId args.ChannelId token with ⟨u, _ | e⟩ <;>
    simp [Effect.isJenkinsCall, getCommandResponse, ephemeralResponse,
      COMMAND_RESPONSE_TYPE_EPHEMERAL, POST_DEFAULT]

theorem ExecuteCommand_build_one_parameter_witness :
    (ExecuteCommand happyPlugin rejectAll
        ⟨"u1", "c1", "/jenkins build folder/job"⟩).effects.filter Effect.isJenkinsCall =
      [.triggerJenkinsJob "u1" "c1" "folder/job"] ∧
    (ExecuteCommand happyPlugin rejectAll
        ⟨"u1", "c1", "/jenkins build folder/job"⟩).result = .ok
      (ephemeralResponse happyPlugin
        (match (happyPlugin.triggerJenkinsJob "u1" "c1" "folder/job").2 with
          | some _ => "Error triggering build for the job '" ++ "folder/job" ++ "'."
          | none => "Build for the job '" ++ "folder/job" ++
              "' has been started.\nHere's the build URL : " ++
              (happyPlugin.triggerJenkinsJob "u1" "c1" "folder/job").1 ++ ". "), none) :=
  ExecuteCommand_build_one_parameter happyPlugin rejectAll
    ⟨"u1", "c1", "/jenkins build folder/job"⟩ "folder/job" (by decide)

/-- C6: for `/jenkins build`, `/jenkins get-artifacts` and `/jenkins test-results` with
more than one parameter, the outcome is decided by `parseJobName` on exactly the
parameter tokens.  When parsing fails the response is the ephemeral text that refers to
`/jenkins help` and no call at all is made (no Jenkins call, no "fetching" notice, no
log entry); when parsing succeeds with name `n`, the Jenkins operation of the action is
the only Jenkins call, made once, with job name `n`. -/
theorem ExecuteCommand_several_parameters (p : Plugin)
    (parse : List String → String × Bool) (args : CommandArgs)
    (action : String) (parameters : List String)
    (hsplit : Fields args.Command = "/jenkins" :: action :: parameters)
    (haction : action = "build" ∨ action = "get-artifacts" ∨ action = "test-results")
    (hlen : 1 < parameters.length) :
    ((parse parameters).2 = false →
      (ExecuteCommand p parse args).result =
          .ok (ephemeralResponse p (helpReferral action), none) ∧
        (ExecuteCommand p parse args).effects = []) ∧
    ((parse parameters).2 = true →
      (ExecuteCommand p parse args).effects.filter Effect.isJenkinsCall =
        [jenkinsOperation action args.UserId args.ChannelId (parse parameters).1]) := by
  rw [ExecuteCommand_eq_switchAction_cons p parse args _ _ hsplit]
  constructor
  · intro hfail
    rw [switchAction_parse_failure p parse args action parameters haction hlen hfail]
    exact ⟨rfl, rfl⟩
  · intro hok
    exact switchAction_parse_success p parse args action parameters haction hlen hok

theorem ExecuteCommand_several_parameters_witness :
    ((joinTokens ["a", "b"]).2 = false →
      (ExecuteCommand happyPlugin joinTokens
          ⟨"u1", "c1", "/jenkins get-artifacts a b"⟩).result =
          .ok (ephemeralResponse happyPlugin (helpReferral "get-artifacts"), none) ∧
        (ExecuteCommand happyPlugin joinTokens
          ⟨"u1", "c1", "/jenkins get-artifacts a b"⟩).effects = []) ∧
    ((joinTokens ["a", "b"]).2 = true →
      (ExecuteCommand happyPlugin joinTokens
          ⟨"u1", "c1", "/jenkins get-artifacts a b"⟩).effects.filter Effect.isJenkinsCall =
        [jenkinsOperation "get-artifacts" "u1" "c1"
          (joinTokens ["a", "b"]).1]) :=
  ExecuteCommand_several_parameters happyPlugin joinTokens
    ⟨"u1", "c1", "/jenkins get-artifacts a b"⟩ "get-artifacts" ["a", "b"] (by decide)
    (Or.inr (Or.inl rfl)) (by decide)

/-- C4: for a parameter sequence of more than one token whose first token begins with a
double quote, whose last token ends with a double quote and in which no token between
them ends with one, `parseJobName` succeeds and returns the tokens joined by single
spaces without the leading and the trailing quote character: the name wrapped in two
quotes is the joined text.  A `/jenkins build` command with such parameters triggers the
build with that name; the tokens `"my` and `job"` give the job name `my job`. -/
theorem parseJobName_quoted_phrase (first : String) (mid : List String) (last : String)
    (hfirst : startsWithQuote first = true)
    (hmid : ∀ t ∈ mid, endsWithQuote t = false)
    (hlast : endsWithQuote last = true) :
    parseJobName (first :: (mid ++ [last])) =
      (String.mk ((" ".intercalate (first :: (mid ++ [last]))).data.drop 1).dropLast, true) ∧
    String.mk (quote :: (parseJobName (first :: (mid ++ [last]))).1.data ++ [quote]) =
      " ".intercalate (first :: (mid ++ [last])) ∧
    ∀ (p : Plugin) (args : CommandArgs),
      Fields args.Command = "/jenkins" :: "build" :: first :: (mid ++ [last]) →
      (ExecuteCommand p parseJobName args).effects.filter Effect.isJenkinsCall =
        [.triggerJenkinsJob args.UserId args.ChannelId
          (String.mk ((" ".intercalate (first :: (mid ++ [last]))).data.drop 1).dropLast)] := by
  have hparse : parseJobName (first :: (mid ++ [last])) =
      (String.mk ((" ".intercalate (first :: (mid ++ [last]))).data.drop 1).dropLast, true) := by
    simp [parseJobName, hfirst, scanToClosingQuote_closing_last mid last first hmid hlast,
      stripQuotes, String.intercalate]
  refine ⟨hparse, ?_, ?_⟩
  · rw [hparse]
    obtain ⟨f, hf⟩ : ∃ f, first.data = quote :: f := by
      have := hfirst
      simp only [startsWithQuote, beq_iff_eq] at this
      exact List.head?_eq_some_iff.1 this
    obtain ⟨l, hl⟩ : ∃ l, last.data = l ++ [quote] := by
      have := hlast
      simp only [endsWithQuote, beq_iff_eq] at this
      exact List.getLast?_eq_some_iff.1 this
    apply String.ext
    simp only [String.intercalate, intercalate_go_data, hf, hl, List.map_append, List.map_cons,
      List.map_nil, List.flatten_append, List.flatten_cons, List.flatten_nil, List.append_nil,
      List.cons_append, List.drop_succ_cons, List.drop_zero]
    rw [show f ++ ((List.map (fun t => ' ' :: t.data) mid).flatten ++ ' ' :: (l ++ [quote])) =
      (f ++ ((List.map (fun t => ' ' :: t.data) mid).flatten ++ ' ' :: l)) ++ [quote] by simp]
    rw [List.dropLast_concat]
  · intro p args hsplit
    rw [ExecuteCommand_eq_switchAction_cons p parseJobName args _ _ hsplit]
    have hok : (parseJobName (first :: (mid ++ [last]))).2 = true := by rw [hparse]
    rw [switchAction_parse_success p parseJobName args "build" _ (Or.inl rfl) (by simp) hok,
      hparse]
    simp [jenkinsOperation]

theorem parseJobName_quoted_phrase_witness :
    parseJobName ["\"my", "job\""] = ("my job", true) ∧
    (ExecuteCommand happyPlugin parseJobName
        ⟨"u1", "c1", "/jenkins build \"my job\""⟩).effects.filter Effect.isJenkinsCall =
      [.triggerJenkinsJob "u1" "c1" "my job"] :=
  have h := parseJobName_quoted_phrase "\"my" [] "job\"" (by decide) (by simp) (by decide)
  ⟨h.1.trans (by decide),
    (h.2.2 happyPlugin ⟨"u1", "c1", "/jenkins build \"my job\""⟩ (by decide)).trans (by decide)⟩

/-- C5: for a parameter sequence of more than one token whose first token does not begin
with a double quote, `parseJobName` fails, whatever the later tokens are; a
`/jenkins build`, `/jenkins get-artifacts` or `/jenkins test-results` command with such
parameters is answered by the ephemeral text that refers to `/jenkins help` and makes no
call: no job name is guessed from unquoted multi-word input. -/
theorem parseJobName_unquoted_fails (first : String) (remaining : List String)
    (hfirst : startsWithQuote first = false) (hmore : remaining ≠ []) :
    (parseJobName (first :: remaining)).2 = false ∧
    ∀ (p : Plugin) (args : CommandArgs) (action : String),
      (action = "build" ∨ action = "get-artifacts" ∨ action = "test-results") →
      Fields args.Command = "/jenkins" :: action :: first :: remaining →
      (ExecuteCommand p parseJobName args).result =
          .ok (ephemeralResponse p (helpReferral action), none) ∧
        (ExecuteCommand p parseJobName args).effects = [] := by
  have hfail : (parseJobName (first :: remaining)).2 = false := by
    simp [parseJobName, hfirst, hmore]
  refine ⟨hfail, ?_⟩
  intro p args action haction hsplit
  have hlen : 1 < (first :: remaining).length := by
    cases remaining with
    | nil => exact absurd rfl hmore
    | cons t ts => simp
  rw [ExecuteCommand_eq_switchAction_cons p parseJobName args _ _ hsplit,
    switchAction_parse_failure p parseJobName args action _ haction hlen hfail]
  exact ⟨rfl, rfl⟩

theorem parseJobName_unquoted_fails_witness :
    (parseJobName ["a", "b"]).2 = false ∧
    (ExecuteCommand happyPlugin parseJobName ⟨"u1", "c1", "/jenkins build a b"⟩).result =
      .ok (ephemeralResponse happyPlugin (helpReferral "build"), none) ∧
    (ExecuteCommand happyPlugin parseJobName ⟨"u1", "c1", "/jenkins build a b"⟩).effects = [] :=
  have h := parseJobName_unquoted_fails "a" ["b"] (by decide) (by decide)
  ⟨h.1, h.2 happyPlugin ⟨"u1", "c1", "/jenkins build a b"⟩ "build" (Or.inl rfl) (by decide)⟩


end Jenkins
